import Mathlib

/-!
Shallow embedding of the response-normalization pipeline of `app/main.py`
(AI theory grading system).  Python text is modelled as `List Char` over the
ASCII fragment: the `re` character classes `\s`, `\w`, `\d`, the case folding
of `re.IGNORECASE`, and the line-break set of `str.splitlines` are modelled on
ASCII characters, which covers every reply the rubric prompt elicits.  Python
floats are modelled as exact decimal numbers `Dec`: every numeral the
extraction regexes can capture is a short decimal literal, on which `float`
and the comparisons performed by the pipeline are exact.  Python 3 `round`
rounds half to even, and is modelled as such.
-/

namespace TheoryGrading

/-- Exact decimal number `num / 10 ^ exp`: the model of the Python floats
produced by `float()` on the decimal literals captured by the regexes. -/
structure Dec where
  num : ℤ
  exp : ℕ
deriving DecidableEq, Repr

/-- Rational value of a `Dec`. -/
def Dec.toRat (d : Dec) : ℚ := (d.num : ℚ) / (10 : ℚ) ^ d.exp

/-- Comparison `a <= b` on decimal values, by cross multiplication. -/
def decLe (a b : Dec) : Bool := a.num * (10 : ℤ) ^ b.exp ≤ b.num * (10 : ℤ) ^ a.exp

/-- Python `min(a, b)`: returns `a` when `a <= b`. -/
def pyMin (a b : Dec) : Dec := if decLe a b then a else b

/-- Python `max(a, b)`: returns `a` when `a >= b`. -/
def pyMax (a b : Dec) : Dec := if decLe b a then a else b

/-- The function `clamp_score` of `app/main.py`: `max(lo, min(hi, value))`
with the default bounds `lo = 0.0` and `hi = 10.0`. -/
def clamp_score (value : Dec) : Dec := pyMax ⟨0, 0⟩ (pyMin ⟨10, 0⟩ value)

/-- Python 3 `round` (round half to even) on an exact decimal, as used in
`int(round(score_val))` of `app/main.py`. -/
def pyRound (d : Dec) : ℤ :=
  let p : ℤ := (10 : ℤ) ^ d.exp
  let f := Int.fdiv d.num p
  let r := d.num - f * p
  if 2 * r < p then f
  else if p < 2 * r then f + 1
  else if f % 2 = 0 then f else f + 1

/-- ASCII model of the Python regex class `\s`, which is also the character
set removed by `str.strip()`. -/
def isPySpace (c : Char) : Bool :=
  c = ' ' || c = '\t' || c = '\n' || c = '\r' || c = Char.ofNat 11 || c = Char.ofNat 12

/-- ASCII model of the Python regex class `\w`, the word characters that
determine `\b` boundaries. -/
def isWordChar (c : Char) : Bool := c.isAlphanum || c = '_'

/-- Line-break characters recognised by Python `str.splitlines` (ASCII part). -/
def isLineBreak (c : Char) : Bool :=
  c = '\n' || c = '\r' || c = Char.ofNat 11 || c = Char.ofNat 12 ||
  c = Char.ofNat 28 || c = Char.ofNat 29 || c = Char.ofNat 30

/-- Python `str.strip()`: drop leading and trailing whitespace. -/
def pyStrip (l : List Char) : List Char :=
  ((l.dropWhile isPySpace).reverse.dropWhile isPySpace).reverse

/-- Python `s.splitlines()[0]`: `none` models the `IndexError` raised when
`s` is empty, since `"".splitlines() == []`. -/
def pySplitlinesHead (l : List Char) : Option (List Char) :=
  match l with
  | [] => none
  | _ => some (l.takeWhile (fun c => !isLineBreak c))

/-- Consume `pat` case-insensitively (`re.IGNORECASE`, ASCII folding) at the
head of `l`, returning the remainder on success. -/
def matchCI : List Char → List Char → Option (List Char)
  | [], l => some l
  | _ :: _, [] => none
  | p :: ps, c :: cs => if c.toLower = p.toLower then matchCI ps cs else none

/-- Consume one literal character at the head of the input. -/
def matchChar (ch : Char) : List Char → Option (List Char)
  | [] => none
  | c :: cs => if c = ch then some cs else none

/-- Model of `re.search`: run the single-position matcher at every start
position from the left, returning the leftmost success. -/
def search {α : Type} (f : List Char → Option α) : List Char → Option α
  | [] => f []
  | c :: t =>
    match f (c :: t) with
    | some x => some x
    | none => search f t

/-- Tail `\s*/\s*10` of `SCORE_RE` after the captured number: on success the
capture `cap` is returned. -/
def scoreTail (cap rest : List Char) : Option (List Char) :=
  match matchChar '/' (rest.dropWhile isPySpace) with
  | none => none
  | some r6 =>
    match matchCI "10".toList (r6.dropWhile isPySpace) with
    | none => none
    | some _ => some cap

/-- Attempt `SCORE_RE`, the pattern `Score\s*:\s*(\d+(?:\.\d+)?)\s*/\s*10`
with `re.IGNORECASE`, at the head of `l`; returns the captured group.  The
regex needs no backtracking at a fixed position: the greedy `\d+` runs are
delimited by non-digits, and when the optional fractional part is present
but the tail then fails, the alternative without the fractional part fails
at the same `\s*/` because the next character is the dot. -/
def scoreMatchAt (l : List Char) : Option (List Char) :=
  match matchCI "score".toList l with
  | none => none
  | some r1 =>
    match matchChar ':' (r1.dropWhile isPySpace) with
    | none => none
    | some r2 =>
      let r3 := r2.dropWhile isPySpace
      let ds := r3.takeWhile Char.isDigit
      if ds.isEmpty then none
      else
        let r4 := r3.dropWhile Char.isDigit
        let capRest : List Char × List Char :=
          match r4 with
          | c :: rest =>
            if c = '.' then
              let fs := rest.takeWhile Char.isDigit
              if fs.isEmpty then (ds, r4)
              else (ds ++ '.' :: fs, rest.dropWhile Char.isDigit)
            else (ds, r4)
          | [] => (ds, r4)
        scoreTail capRest.1 capRest.2

/-- Tail of `GRADE_RE` after `Grade\s*:\s*`: one letter `[A-F]` matched case
insensitively, with a greedy optional `[+-]?` suffix, captured verbatim. -/
def gradeTail : List Char → Option (List Char)
  | [] => none
  | c :: rest =>
    if ('A' ≤ c && c ≤ 'F') || ('a' ≤ c && c ≤ 'f') then
      match rest with
      | s :: _ => if s = '+' || s = '-' then some [c, s] else some [c]
      | [] => some [c]
    else none

/-- Attempt `GRADE_RE`, the pattern `Grade\s*:\s*([A-F][+-]?)` with
`re.IGNORECASE`, at the head of `l`. -/
def gradeMatchAt (l : List Char) : Option (List Char) :=
  match matchCI "grade".toList l with
  | none => none
  | some r1 =>
    match matchChar ':' (r1.dropWhile isPySpace) with
    | none => none
    | some r2 => gradeTail (r2.dropWhile isPySpace)

/-- Attempt `FEEDBACK_RE`, the pattern `Feedback\s*:\s*(.+)` with
`re.IGNORECASE | re.DOTALL`, at the head of `l`.  The greedy `\s*` normally
leaves the capture starting at the first non-whitespace character; when the
remainder after the colon is non-empty but all whitespace, the `\s*` gives
one character back and `.+` captures exactly that final character. -/
def feedbackMatchAt (l : List Char) : Option (List Char) :=
  match matchCI "feedback".toList l with
  | none => none
  | some r1 =>
    match matchChar ':' (r1.dropWhile isPySpace) with
    | none => none
    | some r2 =>
      match r2 with
      | [] => none
      | _ =>
        let c := r2.dropWhile isPySpace
        if c.isEmpty then (r2.getLast?).map (fun ch => [ch]) else some c

/-- Word-boundary check after a final digit of a fallback match: end of the
input or a non-word character. -/
def boundaryAfter : List Char → Bool
  | [] => true
  | c :: _ => !isWordChar c

/-- Second alternative `[0-9](?:\.[0-9])?` of the fallback number pattern,
with its trailing `\b`; the greedy optional group is given up when its own
trailing `\b` fails, falling back to the bare digit. -/
def fallbackDigit : List Char → Option (List Char)
  | [] => none
  | d :: rest =>
    if d.isDigit then
      match rest with
      | c :: rest1 =>
        if c = '.' then
          match rest1 with
          | e :: rest2 =>
            if e.isDigit && boundaryAfter rest2 then some [d, '.', e]
            else if boundaryAfter rest then some [d] else none
          | [] => if boundaryAfter rest then some [d] else none
        else if boundaryAfter rest then some [d] else none
      | [] => some [d]
    else none

/-- One position of the fallback pattern `\b(10|[0-9](?:\.[0-9])?)\b` from
line 160 of `app/main.py`: the ordered alternation tries `10` first.  The
leading `\b` is checked by the caller. -/
def fallbackAt (l : List Char) : Option (List Char) :=
  match l with
  | c1 :: c2 :: rest =>
    if c1 = '1' && c2 = '0' && boundaryAfter rest then some ['1', '0']
    else fallbackDigit l
  | _ => fallbackDigit l

/-- Word-boundary check before a fallback match: the pattern starts with a
digit (a word character), so `\b` holds exactly when the previous character
is absent or a non-word character. -/
def prevBoundary : Option Char → Bool
  | none => true
  | some c => !isWordChar c

/-- Scan for the first fallback number, position by position from the left,
attempting a match only where the leading `\b` holds; `prev` is the
character before the current position. -/
def fallbackSearch : Option Char → List Char → Option (List Char)
  | _, [] => none
  | prev, c :: t =>
    match (if prevBoundary prev then fallbackAt (c :: t) else none) with
    | some x => some x
    | none => fallbackSearch (some c) t

/-- The captured `score` group of `SCORE_RE.search(reply_text)`. -/
def scoreSearch (reply_text : List Char) : Option (List Char) :=
  search scoreMatchAt reply_text

/-- The captured `grade` group of `GRADE_RE.search(reply_text)`. -/
def gradeSearch (reply_text : List Char) : Option (List Char) :=
  search gradeMatchAt reply_text

/-- The captured `feedback` group of `FEEDBACK_RE.search(reply_text)`. -/
def feedbackSearch (reply_text : List Char) : Option (List Char) :=
  search feedbackMatchAt reply_text

/-- The head of `re.findall(r"\b(10|[0-9](?:\.[0-9])?)\b", reply_text)`,
which is all the code of `app/main.py` consumes of the fallback scan. -/
def fallbackFirst (reply_text : List Char) : Option (List Char) :=
  fallbackSearch none reply_text

/-- Numeric value of a digit character. -/
def digitVal (c : Char) : ℕ := c.toNat - 48

/-- Numeric value of a digit string. -/
def digitsVal (l : List Char) : ℕ := l.foldl (fun a c => 10 * a + digitVal c) 0

/-- Python `float(s)` restricted to unsigned decimal literals, the only
shapes the two extraction regexes can capture; every other string models a
`ValueError`, returned as `none`. -/
def parsePyFloat (s : List Char) : Option Dec :=
  let ip := s.takeWhile Char.isDigit
  let rest := s.dropWhile Char.isDigit
  match rest with
  | [] => if ip.isEmpty then none else some ⟨digitsVal ip, 0⟩
  | '.' :: fp =>
    if fp.all Char.isDigit && (!ip.isEmpty || !fp.isEmpty) then
      some ⟨digitsVal ip * 10 ^ fp.length + digitsVal fp, fp.length⟩
    else none
  | _ => none

/-- The function `infer_grade` of `app/main.py`: a letter grade from the
clamped score, used when the model omits its own grade token. -/
def infer_grade (score10 : Dec) : List Char :=
  let s := clamp_score score10
  if decLe ⟨9, 0⟩ s then "A".toList
  else if decLe ⟨8, 0⟩ s then "B".toList
  else if decLe ⟨7, 0⟩ s then "C".toList
  else if decLe ⟨6, 0⟩ s then "D".toList
  else if decLe ⟨5, 0⟩ s then "E".toList
  else "F".toList

/-- The dictionary returned by `parse_model_reply` of `app/main.py`. -/
structure GradingRecord where
  score : ℤ
  grade : List Char
  feedback : List Char
  raw_response : List Char
deriving DecidableEq, Repr

/-- The raw extracted score of `parse_model_reply` before validation: the
float of the `SCORE_RE` capture, else the float of the first fallback
number, else `0.0`; a float-conversion `ValueError` also falls through. -/
def score_val_raw (reply_text : List Char) : Dec :=
  match (match scoreSearch reply_text with
         | some c => parsePyFloat c
         | none => none) with
  | some v => v
  | none =>
    match (match fallbackFirst reply_text with
           | some c => parsePyFloat c
           | none => none) with
    | some v => v
    | none => ⟨0, 0⟩

/-- The variable `score_val` of `parse_model_reply` after the clamping on
line 170 of `app/main.py`. -/
def score_val_of (reply_text : List Char) : Dec :=
  clamp_score (score_val_raw reply_text)

/-- The function `parse_model_reply` of `app/main.py`.  `none` models the
uncaught `IndexError` raised by `feedback_str.splitlines()[0]` when the
stripped feedback capture is the empty string. -/
def parse_model_reply (reply_text : List Char) : Option GradingRecord :=
  let score_val := score_val_of reply_text
  let score_int := pyRound score_val
  let grade_str :=
    match gradeSearch reply_text with
    | some g => g
    | none => infer_grade score_val
  let feedback_str :=
    match feedbackSearch reply_text with
    | some f => pyStrip f
    | none => "No feedback found.".toList
  match pySplitlinesHead feedback_str with
  | none => none
  | some line => some ⟨score_int, grade_str, pyStrip line, reply_text⟩

/-- The request body of `POST /evaluate` (`EvaluationInput` of `app/main.py`). -/
structure EvaluationInput where
  question : List Char
  real_answer : List Char
  student_answer : List Char
  keywords : List (List Char)
deriving DecidableEq, Repr

/-- Outcome of one call to the transport collaborator — `call_openrouter`
together with the defensive envelope extraction of `grade_with_mistral` —
specified at its interface boundary: the raw reply text, or one of the
failures the route handler catches. -/
inductive TransportOutcome where
  | reply (text : List Char)
  | httpStatusError (status : Option ℕ) (details : List Char)
  | httpError (details : List Char)
  | unexpectedShape (details : List Char)
deriving DecidableEq, Repr

/-- The JSON payload returned by the `/evaluate` route handler of
`app/main.py`: the grading record, or one of its error objects (errors are
returned as payload with HTTP 200). -/
inductive EvalResponse where
  | record (r : GradingRecord)
  | missingConfigError
  | openRouterError (status : Option ℕ) (details : List Char)
  | networkError (details : List Char)
  | unexpectedError (details : List Char)
deriving DecidableEq, Repr

/-- The `/evaluate` route handler `evaluate_answer` of `app/main.py`, with
the transport collaborator abstracted as a function at its interface
boundary and the collaborator's call count threaded through as `calls`.
When the API key is empty — Python falsy `""` — the handler returns the
misconfiguration payload without touching the transport.  A `none` from
`parse_model_reply` is the uncaught `IndexError`, absorbed by the final
generic `except Exception` handler. -/
def evaluate_answer (api_key : List Char)
    (transport : EvaluationInput → TransportOutcome)
    (input : EvaluationInput) (calls : ℕ) : ℕ × EvalResponse :=
  if api_key = [] then (calls, .missingConfigError)
  else
    match transport input with
    | .reply text =>
      match parse_model_reply text with
      | some rec => (calls + 1, .record rec)
      | none => (calls + 1, .unexpectedError "IndexError".toList)
    | .httpStatusError status details => (calls + 1, .openRouterError status details)
    | .httpError details => (calls + 1, .networkError details)
    | .unexpectedShape details => (calls + 1, .unexpectedError details)

/-- Opening brace character (written by code point). -/
def lbrace : Char := Char.ofNat 123

/-- Closing brace character (written by code point). -/
def rbrace : Char := Char.ofNat 125

/-- JSON values, for the structured output grammar of the specification. -/
inductive Json where
  | null
  | bool (b : Bool)
  | num (v : Dec)
  | str (s : List Char)
  | arr (elems : List Json)
  | obj (fields : List (List Char × Json))
deriving Repr

/-- JSON structural whitespace. -/
def skipJsonWs (l : List Char) : List Char :=
  l.dropWhile (fun c => c = ' ' || c = '\t' || c = '\n' || c = '\r')

/-- Body of a JSON string after the opening quote; backslash escapes are kept
undecoded (enough for the fields of the grading grammar). -/
def jsonStringBody : ℕ → List Char → Option (List Char × List Char)
  | 0, _ => none
  | _, [] => none
  | fuel + 1, c :: rest =>
    if c = '"' then some ([], rest)
    else if c = '\\' then
      match rest with
      | [] => none
      | e :: rest2 =>
        match jsonStringBody fuel rest2 with
        | some (s, r) => some (e :: s, r)
        | none => none
    else
      match jsonStringBody fuel rest with
      | some (s, r) => some (c :: s, r)
      | none => none

/-- A JSON number `-?d+(.d+)?` as an exact decimal (no exponent forms, which
the 0–10 score grammar never produces). -/
def jsonNumber (l : List Char) : Option (Dec × List Char) :=
  let negTail : Bool × List Char :=
    match l with
    | '-' :: t => (true, t)
    | _ => (false, l)
  let ds := negTail.2.takeWhile Char.isDigit
  if ds.isEmpty then none
  else
    let r := negTail.2.dropWhile Char.isDigit
    let vRest : Dec × List Char :=
      match r with
      | '.' :: t =>
        let fs := t.takeWhile Char.isDigit
        if fs.isEmpty then (⟨digitsVal ds, 0⟩, r)
        else (⟨digitsVal ds * 10 ^ fs.length + digitsVal fs, fs.length⟩,
              t.dropWhile Char.isDigit)
      | _ => (⟨digitsVal ds, 0⟩, r)
    if vRest.2 = r && (match r with | '.' :: _ => true | _ => false) then none
    else some (if negTail.1 then ⟨-vRest.1.num, vRest.1.exp⟩ else vRest.1, vRest.2)

mutual

/-- Recursive-descent JSON value parser, on fuel. -/
def jsonValue : ℕ → List Char → Option (Json × List Char)
  | 0, _ => none
  | fuel + 1, l =>
    match skipJsonWs l with
    | [] => none
    | 'n' :: 'u' :: 'l' :: 'l' :: r => some (.null, r)
    | 't' :: 'r' :: 'u' :: 'e' :: r => some (.bool true, r)
    | 'f' :: 'a' :: 'l' :: 's' :: 'e' :: r => some (.bool false, r)
    | '"' :: r =>
      match jsonStringBody (fuel + 1) r with
      | some (s, r2) => some (.str s, r2)
      | none => none
    | '[' :: r =>
      (match skipJsonWs r with
       | ']' :: r2 => some (.arr [], r2)
       | _ =>
         match jsonElems fuel r with
         | some (xs, r2) => some (.arr xs, r2)
         | none => none)
    | c :: r =>
      if c = lbrace then
        match skipJsonWs r with
        | c2 :: r2 =>
          if c2 = rbrace then some (.obj [], r2)
          else
            match jsonFields fuel (c2 :: r2) with
            | some (fs, r3) => some (.obj fs, r3)
            | none => none
        | [] => none
      else
        match jsonNumber (c :: r) with
        | some (v, r2) => some (.num v, r2)
        | none => none

/-- Comma-separated JSON array elements up to the closing bracket. -/
def jsonElems : ℕ → List Char → Option (List Json × List Char)
  | 0, _ => none
  | fuel + 1, l =>
    match jsonValue fuel l with
    | none => none
    | some (v, r) =>
      match skipJsonWs r with
      | ',' :: r2 =>
        match jsonElems fuel r2 with
        | some (xs, r3) => some (v :: xs, r3)
        | none => none
      | ']' :: r2 => some ([v], r2)
      | _ => none

/-- Comma-separated JSON object members up to the closing brace. -/
def jsonFields : ℕ → List Char → Option (List (List Char × Json) × List Char)
  | 0, _ => none
  | fuel + 1, l =>
    match skipJsonWs l with
    | '"' :: r =>
      match jsonStringBody (fuel + 1) r with
      | none => none
      | some (k, r2) =>
        match skipJsonWs r2 with
        | ':' :: r3 =>
          match jsonValue fuel r3 with
          | none => none
          | some (v, r4) =>
            match skipJsonWs r4 with
            | ',' :: r5 =>
              (match jsonFields fuel r5 with
               | some (fs, r6) => some ((k, v) :: fs, r6)
               | none => none)
            | c :: r5 => if c = rbrace then some ([(k, v)], r5) else none
            | [] => none
        | _ => none
    | _ => none

end

/-- Whole-input JSON parse: one JSON value followed only by whitespace;
`none` models `json.JSONDecodeError`. -/
def jsonParse (l : List Char) : Option Json :=
  match jsonValue (2 * l.length + 2) l with
  | some (v, rest) => if (skipJsonWs rest).isEmpty then some v else none
  | none => none

/-- First value bound to `key` in a JSON object's field list. -/
def jsonLookup (fields : List (List Char × Json)) (key : List Char) : Option Json :=
  match fields with
  | [] => none
  | (k, v) :: rest => if k = key then some v else jsonLookup rest key

/-- All-strings view of a JSON array. -/
def jsonStringList : List Json → Option (List (List Char))
  | [] => some []
  | .str s :: rest =>
    match jsonStringList rest with
    | some xs => some (s :: xs)
    | none => none
  | _ => none

/-- Modelled from the spec: the two output grammars of §4.1, selectable by
configuration; only the line grammar appears in `src/main.py`. -/
inductive OutputMode where
  | line
  | structured
deriving DecidableEq, Repr

/-- Modelled from the spec (§7): the normalizer failure kinds relevant to
parsing — `parseFailure` for a structured-mode decode error, and
`unexpectedException` for an exception escaping the line-mode parser and
caught at the orchestration boundary. -/
inductive NormalizeError where
  | parseFailure
  | unexpectedException
deriving DecidableEq, Repr

/-- Modelled from the spec: the structured-mode GradingRecord of §3, with
the model's self-reported keyword fields of §4.4. -/
structure StructuredRecord where
  score : ℤ
  grade : List Char
  feedback : List Char
  found_keywords : List (List Char)
  missing_keywords : List (List Char)
deriving DecidableEq, Repr

/-- A grading record of either output grammar. -/
inductive NormalizeResult where
  | lineRecord (r : GradingRecord)
  | structuredRecord (r : StructuredRecord)
deriving DecidableEq, Repr

/-- Tagged-variant result of the normalizer (§9): a complete record or a
specific failure kind. -/
inductive NormalizeOutcome where
  | ok (r : NormalizeResult)
  | error (e : NormalizeError)
deriving DecidableEq, Repr

/-- Modelled from the spec: structured-mode extraction (§4.2), absent from
`src/main.py` which implements only the line grammar.  Parse the reply as a
single JSON object; pull `score`, `grade`, `feedback`, `found_keywords` and
`missing_keywords` by key, the two keyword lists defaulting to empty when
absent (§4.4 copies them verbatim); validate the score through the Score
Validator (§4.3: clamp, then round).  A malformed (non-JSON) reply is a
hard `ParseFailure` reported to the caller, never a defaulted record. -/
def parse_structured_reply (reply_text : List Char) : NormalizeOutcome :=
  match jsonParse reply_text with
  | none => .error .parseFailure
  | some j =>
    match j with
    | .obj fields =>
      match jsonLookup fields "score".toList, jsonLookup fields "grade".toList,
            jsonLookup fields "feedback".toList with
      | some (.num sc), some (.str g), some (.str fb) =>
        let fk : Option (List (List Char)) :=
          match jsonLookup fields "found_keywords".toList with
          | some (.arr xs) => jsonStringList xs
          | none => some []
          | some _ => none
        let mk : Option (List (List Char)) :=
          match jsonLookup fields "missing_keywords".toList with
          | some (.arr xs) => jsonStringList xs
          | none => some []
          | some _ => none
        match fk, mk with
        | some fks, some mks =>
          .ok (.structuredRecord ⟨pyRound (clamp_score sc), g, fb, fks, mks⟩)
        | _, _ => .error .parseFailure
      | _, _, _ => .error .parseFailure
    | _ => .error .parseFailure

/-- Modelled from the spec: the response normalizer dispatching on the
configured output grammar (§4.2); line mode is exactly `parse_model_reply`
of `src/main.py`, its `none` being the exception absorbed at the
orchestration boundary. -/
def normalize_reply (mode : OutputMode) (reply_text : List Char) : NormalizeOutcome :=
  match mode with
  | .line =>
    match parse_model_reply reply_text with
    | some rec => .ok (.lineRecord rec)
    | none => .error .unexpectedException
  | .structured => parse_structured_reply reply_text

/-- Shape of the values the `grade` field of a line-mode record can take:
one letter `A`–`F` in upper or lower case, optionally followed by `+` or
`-` (the verbatim `GRADE_RE` capture), the inferred grades being the plain
upper-case letters. -/
def isGradeToken : List Char → Bool
  | [c] => ('A' ≤ c && c ≤ 'F') || ('a' ≤ c && c ≤ 'f')
  | [c, s] => (('A' ≤ c && c ≤ 'F') || ('a' ≤ c && c ≤ 'f')) && (s = '+' || s = '-')
  | _ => false

/-- The float value of a fallback capture (`0.0` standing in for the
`ValueError` case, which never occurs). -/
def fallbackVal (c : List Char) : Dec := (parsePyFloat c).getD ⟨0, 0⟩

lemma parse_example_three_lines :
    parse_model_reply "Score: 7/10\nGrade: C\nFeedback: Good answer.".toList =
      some ⟨7, "C".toList, "Good answer.".toList,
        "Score: 7/10\nGrade: C\nFeedback: Good answer.".toList⟩ := by decide

lemma fallback_example_bare_number :
    fallbackFirst "The answer deserves 6 points".toList = some ['6'] := by decide

lemma fallback_example_two_decimals :
    fallbackFirst "value 6.55 here".toList = some ['6'] := by decide

lemma fallback_example_embedded :
    fallbackFirst "take 105 now".toList = none := by decide

lemma jsonParse_example_prose :
    (jsonParse "Sorry, I cannot grade this.".toList).isNone = true := by decide

lemma jsonParse_example_literal :
    (jsonParse "  null  ".toList).isNone = false := by decide

lemma toRat_zero : (Dec.mk 0 0).toRat = 0 := by
  simp [Dec.toRat]

lemma toRat_ten : (Dec.mk 10 0).toRat = 10 := by
  simp [Dec.toRat]

lemma decLe_iff (a b : Dec) : decLe a b = true ↔ a.toRat ≤ b.toRat := by
  have h1 : (0 : ℚ) < (10 : ℚ) ^ a.exp := by positivity
  have h2 : (0 : ℚ) < (10 : ℚ) ^ b.exp := by positivity
  unfold decLe Dec.toRat
  rw [decide_eq_true_eq, div_le_div_iff₀ h1 h2]
  constructor
  · intro h; exact_mod_cast h
  · intro h; exact_mod_cast h

lemma clamp_score_toRat (s : Dec) :
    (clamp_score s).toRat = max 0 (min 10 s.toRat) := by
  unfold clamp_score pyMax pyMin
  by_cases h1 : decLe ⟨10, 0⟩ s = true
  · have h1' : (10 : ℚ) ≤ s.toRat := by
      have h := (decLe_iff ⟨10, 0⟩ s).mp h1
      rwa [toRat_ten] at h
    rw [if_pos h1]
    have h2 : decLe ⟨10, 0⟩ ⟨0, 0⟩ = false := by decide
    rw [h2]
    simp only [Bool.false_eq_true, if_false, toRat_ten]
    rw [min_eq_left h1', max_eq_right (by norm_num : (0 : ℚ) ≤ 10)]
  · have h1' : s.toRat < 10 := by
      have h := (decLe_iff ⟨10, 0⟩ s).not.mp (by simpa using h1)
      rw [toRat_ten] at h
      exact lt_of_not_le h
    rw [if_neg h1]
    by_cases h2 : decLe s ⟨0, 0⟩ = true
    · have h2' : s.toRat ≤ 0 := by
        have h := (decLe_iff s ⟨0, 0⟩).mp h2
        rwa [toRat_zero] at h
      rw [if_pos h2, toRat_zero]
      rw [min_eq_right (le_of_lt h1'), max_eq_left h2']
    · have h2' : (0 : ℚ) ≤ s.toRat := by
        have h := (decLe_iff s ⟨0, 0⟩).not.mp (by simpa using h2)
        rw [toRat_zero] at h
        exact le_of_not_le h
      rw [if_neg h2]
      rw [min_eq_right (le_of_lt h1'), max_eq_right h2']

/-- C9: score clamping satisfies `score = max(0, min(10, score))`: every
value below 0 clamps to 0, every value above 10 clamps to 10, and every
decimal value already in [0, 10] — in particular one with at most one
decimal digit — is left unchanged. -/
theorem clamp_score_bounds (s : Dec) :
    (s.toRat < 0 → (clamp_score s).toRat = 0) ∧
    (10 < s.toRat → (clamp_score s).toRat = 10) ∧
    (0 ≤ s.toRat → s.toRat ≤ 10 → (clamp_score s).toRat = s.toRat) := by
  refine ⟨fun h => ?_, fun h => ?_, fun h1 h2 => ?_⟩ <;> rw [clamp_score_toRat]
  · rw [min_eq_right (by linarith), max_eq_left (by linarith)]
  · rw [min_eq_left (by linarith), max_eq_right (by norm_num : (0 : ℚ) ≤ 10)]
  · rw [min_eq_right h2, max_eq_right h1]

/-- Witness for C9 at the concrete scores −3, 12 and 8.5. -/
theorem clamp_score_bounds_witness :
    (Dec.toRat ⟨-3, 0⟩ < 0 ∧ (clamp_score ⟨-3, 0⟩).toRat = 0) ∧
    (10 < Dec.toRat ⟨12, 0⟩ ∧ (clamp_score ⟨12, 0⟩).toRat = 10) ∧
    (0 ≤ Dec.toRat ⟨85, 1⟩ ∧ Dec.toRat ⟨85, 1⟩ ≤ 10 ∧
      (clamp_score ⟨85, 1⟩).toRat = Dec.toRat ⟨85, 1⟩) := by
  have hm3 : Dec.toRat ⟨-3, 0⟩ < 0 := by norm_num [Dec.toRat]
  have h12 : 10 < Dec.toRat ⟨12, 0⟩ := by norm_num [Dec.toRat]
  have h85a : (0 : ℚ) ≤ Dec.toRat ⟨85, 1⟩ := by norm_num [Dec.toRat]
  have h85b : Dec.toRat ⟨85, 1⟩ ≤ 10 := by norm_num [Dec.toRat]
  exact ⟨⟨hm3, (clamp_score_bounds ⟨-3, 0⟩).1 hm3⟩,
         ⟨h12, (clamp_score_bounds ⟨12, 0⟩).2.1 h12⟩,
         ⟨h85a, h85b, (clamp_score_bounds ⟨85, 1⟩).2.2 h85a h85b⟩⟩

/-- C8: with no API credential configured (the Python-falsy empty string),
every call to the `/evaluate` handler returns the misconfiguration error
payload and performs zero calls to the transport collaborator: the call
count is returned unchanged, whatever the transport and the input. -/
theorem missing_key_short_circuits (transport : EvaluationInput → TransportOutcome)
    (input : EvaluationInput) (calls : ℕ) :
    evaluate_answer [] transport input calls = (calls, .missingConfigError) := by
  unfold evaluate_answer
  simp

/-- Witness for C8 at a concrete transport, input and call count. -/
theorem missing_key_short_circuits_witness :
    evaluate_answer [] (fun _ => .reply []) ⟨[], [], [], []⟩ 0 =
      (0, .missingConfigError) :=
  missing_key_short_circuits (fun _ => .reply []) ⟨[], [], [], []⟩ 0

/-- C1: evidence for the code bug — on the reply `"Feedback:\n"` the
line-mode normalizer does not return a grading record at all: the feedback
capture strips to the empty string, `"".splitlines()` is empty, and
`splitlines()[0]` raises `IndexError`, failing the request instead of
degrading feedback to a default. -/
theorem parse_crashes_on_blank_feedback :
    parse_model_reply "Feedback:\n".toList = none := by decide

/-- C3: evidence for the code bug — `int(round(x))` rounds half to even in
Python 3, so `"Score: 8.5/10"` yields score 8 where the claim (and the
code's own comment, line 171) requires half-up rounding to 9; `8.4` rounds
to 8 as claimed and `9.5` rounds up to 10, the even neighbour. -/
theorem score_rounds_half_to_even :
    (parse_model_reply "Score: 8.5/10".toList).map GradingRecord.score = some 8 ∧
    (parse_model_reply "Score: 8.4/10".toList).map GradingRecord.score = some 8 ∧
    (parse_model_reply "Score: 9.5/10".toList).map GradingRecord.score = some 10 := by
  decide

/-- C7: evidence for the code bug — a reply whose feedback capture is pure
whitespace (`"Feedback: \n"`) crashes the parser instead of producing a
first-line feedback value, while on the claim's own example the first line
is indeed retained. -/
theorem feedback_first_line_and_crash :
    parse_model_reply "Feedback: \n".toList = none ∧
    (parse_model_reply "Feedback: Line one.\nLine two.".toList).map GradingRecord.feedback =
      some "Line one.".toList := by
  decide

/-- C2: counterexample — the grade is inferred from the clamped but not yet
rounded score: the grade-token-free reply `"Score: 8.5/10"` yields grade
`"B"` (8.5 < 9 at the `infer_grade` call site), not the `"A"` the claim
derives from the rounded score, and its returned score is 8, not 9. -/
theorem grade_from_unrounded_8_5 :
    parse_model_reply "Score: 8.5/10".toList =
      some ⟨8, "B".toList, "No feedback found.".toList, "Score: 8.5/10".toList⟩ ∧
    "B".toList ≠ "A".toList := by
  decide

/-- C5: counterexample — the model's grade token is returned verbatim: the
reply `"Grade: b+"` produces the grade value `"b+"`, which is none of the
six letters `A`–`F`. -/
theorem grade_token_verbatim_b_plus :
    (parse_model_reply "Grade: b+".toList).map GradingRecord.grade = some "b+".toList ∧
    "b+".toList ∉ ["A".toList, "B".toList, "C".toList,
                   "D".toList, "E".toList, "F".toList] := by
  decide

/-- C6: counterexample — a reply with no numeric token need not grade `F`:
`"Grade: A"` contains no numeric token, its score defaults to 0, yet its
grade is the model's own token `"A"`. -/
theorem no_number_but_grade_token :
    scoreSearch "Grade: A".toList = none ∧
    fallbackFirst "Grade: A".toList = none ∧
    (parse_model_reply "Grade: A".toList).map GradingRecord.score = some 0 ∧
    (parse_model_reply "Grade: A".toList).map GradingRecord.grade = some "A".toList ∧
    "A".toList ≠ "F".toList := by
  decide

/-- C4: in the spec-modelled structured output grammar, a reply that is not
valid JSON yields the `ParseFailure` error response, never a defaulted
grading record. -/
theorem structured_mode_rejects_non_json (r : List Char)
    (h : (jsonParse r).isNone = true) :
    normalize_reply .structured r = .error .parseFailure := by
  unfold normalize_reply parse_structured_reply
  rw [Option.isNone_iff_eq_none] at h
  rw [h]

/-- Witness for C4 at a concrete refusal reply. -/
theorem structured_mode_rejects_non_json_witness :
    normalize_reply .structured "I cannot assess this answer.".toList =
      .error .parseFailure :=
  structured_mode_rejects_non_json "I cannot assess this answer.".toList (by decide)

lemma search_some {α : Type} {f : List Char → Option α} {l : List Char} {x : α}
    (h : search f l = some x) : ∃ l', f l' = some x := by
  induction l with
  | nil => exact ⟨[], h⟩
  | cons c t ih =>
    simp only [search] at h
    cases hf : f (c :: t) with
    | some y =>
      rw [hf] at h
      exact ⟨c :: t, hf.trans h⟩
    | none =>
      rw [hf] at h
      exact ih h

lemma fallbackSearch_some : ∀ {prev : Option Char} {l cap : List Char},
    fallbackSearch prev l = some cap → ∃ l', fallbackAt l' = some cap := by
  intro prev l
  induction l generalizing prev with
  | nil => intro cap h; cases h
  | cons c t ih =>
    intro cap h
    simp only [fallbackSearch] at h
    by_cases hb : prevBoundary prev = true
    · rw [if_pos hb] at h
      cases hf : fallbackAt (c :: t) with
      | some x =>
        rw [hf] at h
        exact ⟨c :: t, hf.trans h⟩
      | none =>
        rw [hf] at h
        exact ih h
    · rw [if_neg hb] at h
      exact ih h

lemma parse_score_eq {r : List Char} {rec : GradingRecord}
    (h : parse_model_reply r = some rec) :
    rec.score = pyRound (score_val_of r) := by
  simp only [parse_model_reply] at h
  split at h
  · exact Option.noConfusion h
  · rw [Option.some.injEq] at h
    rw [← h]

lemma parse_grade_some_eq {r g : List Char} {rec : GradingRecord}
    (hg : gradeSearch r = some g) (h : parse_model_reply r = some rec) :
    rec.grade = g := by
  simp only [parse_model_reply, hg] at h
  split at h
  · exact Option.noConfusion h
  · rw [Option.some.injEq] at h
    rw [← h]

lemma parse_grade_none_eq {r : List Char} {rec : GradingRecord}
    (hg : gradeSearch r = none) (h : parse_model_reply r = some rec) :
    rec.grade = infer_grade (score_val_of r) := by
  simp only [parse_model_reply, hg] at h
  split at h
  · exact Option.noConfusion h
  · rw [Option.some.injEq] at h
    rw [← h]

lemma gradeTail_token {l g : List Char} (h : gradeTail l = some g) :
    isGradeToken g = true := by
  cases l with
  | nil => exact Option.noConfusion h
  | cons c rest =>
    cases rest with
    | nil =>
      simp only [gradeTail] at h
      by_cases hc : (('A' ≤ c && c ≤ 'F') || ('a' ≤ c && c ≤ 'f')) = true
      · rw [if_pos hc] at h
        rw [Option.some.injEq] at h
        rw [← h]
        simpa [isGradeToken] using hc
      · rw [if_neg hc] at h
        exact Option.noConfusion h
    | cons s rest2 =>
      simp only [gradeTail] at h
      by_cases hc : (('A' ≤ c && c ≤ 'F') || ('a' ≤ c && c ≤ 'f')) = true
      · rw [if_pos hc] at h
        by_cases hs : (s = '+' || s = '-') = true
        · rw [if_pos hs] at h
          rw [Option.some.injEq] at h
          rw [← h]
          simp only [isGradeToken, Bool.and_eq_true]
          exact ⟨hc, hs⟩
        · rw [if_neg hs] at h
          rw [Option.some.injEq] at h
          rw [← h]
          simpa [isGradeToken] using hc
      · rw [if_neg hc] at h
        exact Option.noConfusion h

lemma gradeMatchAt_token {l g : List Char} (h : gradeMatchAt l = some g) :
    isGradeToken g = true := by
  cases h1 : matchCI "grade".toList l with
  | none =>
    simp only [gradeMatchAt, h1] at h
    exact Option.noConfusion h
  | some r1 =>
    cases h2 : matchChar ':' (r1.dropWhile isPySpace) with
    | none =>
      simp only [gradeMatchAt, h1, h2] at h
      exact Option.noConfusion h
    | some r2 =>
      simp only [gradeMatchAt, h1, h2] at h
      exact gradeTail_token h

lemma isGradeToken_infer (s : Dec) : isGradeToken (infer_grade s) = true := by
  simp only [infer_grade]
  split
  · decide
  split
  · decide
  split
  · decide
  split
  · decide
  split
  · decide
  decide

/-- C2 (amended): whenever the model's own grade token is absent from the
reply, the returned grade is the inference table applied to the clamped but
not yet rounded score; in particular a grade-token-free reply whose only
extracted score is 8.5 yields grade B — the table at 8.5 — rather than the
grade A that the rounded score 9 would give. -/
theorem grade_inferred_from_clamped_unrounded (r : List Char) (rec : GradingRecord)
    (hg : gradeSearch r = none) (hp : parse_model_reply r = some rec) :
    rec.grade = infer_grade (score_val_of r) :=
  parse_grade_none_eq hg hp

/-- Witness for C2 (amended) at the grade-token-free reply `"Score: 8.5/10"`. -/
theorem grade_inferred_from_clamped_unrounded_witness :
    (⟨8, "B".toList, "No feedback found.".toList, "Score: 8.5/10".toList⟩ :
        GradingRecord).grade =
      infer_grade (score_val_of "Score: 8.5/10".toList) :=
  grade_inferred_from_clamped_unrounded "Score: 8.5/10".toList _ (by decide) (by decide)

/-- C5 (amended): the grade field of every returned record is a grade
token: a single letter `A`–`F` in upper or lower case, optionally suffixed
by `+` or `-`.  A token supplied by the model is returned verbatim — so
lower-case letters and `+`/`-` suffixes do occur — while an inferred grade
is one of the six plain upper-case letters. -/
theorem parsed_grade_is_grade_token (r : List Char) (rec : GradingRecord)
    (hp : parse_model_reply r = some rec) :
    isGradeToken rec.grade = true := by
  cases hg : gradeSearch r with
  | none =>
    rw [parse_grade_none_eq hg hp]
    exact isGradeToken_infer _
  | some g =>
    rw [parse_grade_some_eq hg hp]
    obtain ⟨l', hl'⟩ := search_some hg
    exact gradeMatchAt_token hl'

/-- Witness for C5 (amended) at the reply `"Grade: d-"`. -/
theorem parsed_grade_is_grade_token_witness :
    isGradeToken (GradingRecord.grade
      ⟨0, "d-".toList, "No feedback found.".toList, "Grade: d-".toList⟩) = true :=
  parsed_grade_is_grade_token "Grade: d-".toList _ (by decide)

lemma score_val_raw_fallback {r c : List Char} (hs : scoreSearch r = none)
    (hf : fallbackFirst r = some c) : score_val_raw r = fallbackVal c := by
  simp only [score_val_raw, hs, hf, fallbackVal]
  cases hp : parsePyFloat c with
  | none => simp [hp]
  | some v => simp [hp]

lemma score_val_raw_none {r : List Char} (hs : scoreSearch r = none)
    (hf : fallbackFirst r = none) : score_val_raw r = ⟨0, 0⟩ := by
  simp only [score_val_raw, hs, hf]

/-- C6 (amended): in line mode, when no `Score: X/10` pattern matches, the
first standalone number found by the fallback scan becomes the score — a
reply with no `Score:` token but containing the bare number 6 yields score
6 — and when no numeric token is found at all the score is 0 and, provided
the reply also carries no grade token, the grade is F. -/
theorem fallback_and_default_score :
    (∀ r c rec, scoreSearch r = none → fallbackFirst r = some c →
        parse_model_reply r = some rec →
        rec.score = pyRound (clamp_score (fallbackVal c))) ∧
    (parse_model_reply "The essay deserves 6".toList).map GradingRecord.score = some 6 ∧
    (∀ r rec, scoreSearch r = none → fallbackFirst r = none → gradeSearch r = none →
        parse_model_reply r = some rec →
        rec.score = 0 ∧ rec.grade = "F".toList) := by
  refine ⟨?_, by decide, ?_⟩
  · intro r c rec hs hf hp
    rw [parse_score_eq hp]
    unfold score_val_of
    rw [score_val_raw_fallback hs hf]
  · intro r rec hs hf hg hp
    have hv : score_val_of r = ⟨0, 0⟩ := by
      unfold score_val_of
      rw [score_val_raw_none hs hf]
      decide
    constructor
    · rw [parse_score_eq hp, hv]
      decide
    · rw [parse_grade_none_eq hg hp, hv]
      decide

/-- Witness for C6 (amended): part one at the reply `"rated 4 overall"`
with fallback capture `4`, part three at `"no numeric token at all"`. -/
theorem fallback_and_default_score_witness :
    (⟨4, "F".toList, "No feedback found.".toList, "rated 4 overall".toList⟩ :
        GradingRecord).score = pyRound (clamp_score (fallbackVal ['4'])) ∧
    ((⟨0, "F".toList, "No feedback found.".toList,
        "no numeric token at all".toList⟩ : GradingRecord).score = 0 ∧
     (⟨0, "F".toList, "No feedback found.".toList,
        "no numeric token at all".toList⟩ : GradingRecord).grade = "F".toList) :=
  ⟨fallback_and_default_score.1 "rated 4 overall".toList ['4'] _
      (by decide) (by decide) (by decide),
   fallback_and_default_score.2.2 "no numeric token at all".toList _
      (by decide) (by decide) (by decide) (by decide)⟩

lemma all_takeWhile_digits (l : List Char) :
    (l.takeWhile Char.isDigit).all Char.isDigit = true := by
  rw [List.all_eq_true]
  intro x hx
  exact List.mem_takeWhile_imp hx

lemma takeWhile_digits_self {ds : List Char} (h : ds.all Char.isDigit = true) :
    ds.takeWhile Char.isDigit = ds :=
  List.takeWhile_eq_self_iff.mpr (by simpa [List.all_eq_true] using h)

lemma dropWhile_digits_nil {ds : List Char} (h : ds.all Char.isDigit = true) :
    ds.dropWhile Char.isDigit = [] :=
  List.dropWhile_eq_nil_iff.mpr (by simpa [List.all_eq_true] using h)

lemma digits_append_dot {ds : List Char} (h : ds.all Char.isDigit = true)
    (fs : List Char) :
    (ds ++ '.' :: fs).takeWhile Char.isDigit = ds ∧
    (ds ++ '.' :: fs).dropWhile Char.isDigit = '.' :: fs := by
  have hdot : ('.' : Char).isDigit = false := by decide
  induction ds with
  | nil =>
    constructor
    · simp [List.takeWhile_cons, hdot]
    · simp [List.dropWhile_cons, hdot]
  | cons d t ih =>
    simp only [List.all_cons, Bool.and_eq_true] at h
    obtain ⟨ih1, ih2⟩ := ih h.2
    constructor
    · simp [List.takeWhile_cons, h.1, ih1]
    · simp [List.dropWhile_cons, h.1, ih2]

lemma parsePyFloat_digits_isSome {ds : List Char} (hne : ds.isEmpty = false)
    (h : ds.all Char.isDigit = true) : (parsePyFloat ds).isSome = true := by
  simp only [parsePyFloat, takeWhile_digits_self h, dropWhile_digits_nil h, hne]
  simp

lemma parsePyFloat_dot_isSome {ds fs : List Char} (hne : ds.isEmpty = false)
    (hd : ds.all Char.isDigit = true) (hf : fs.all Char.isDigit = true) :
    (parsePyFloat (ds ++ '.' :: fs)).isSome = true := by
  obtain ⟨h1, h2⟩ := digits_append_dot hd fs
  simp only [parsePyFloat, h1, h2]
  simp [hf, hne]

lemma digitVal_le_nine {d : Char} (hd : d.isDigit = true) : digitVal d ≤ 9 := by
  simp only [Char.isDigit, Bool.and_eq_true, decide_eq_true_eq] at hd
  have h2 : d.val.toBitVec.toNat ≤ (57 : UInt32).toBitVec.toNat :=
    BitVec.le_def.mp (UInt32.le_def.mp hd.2)
  have h57 : (57 : UInt32).toBitVec.toNat = 57 := by decide
  rw [h57] at h2
  have hval : digitVal d = d.val.toBitVec.toNat - 48 := rfl
  omega

lemma parsePyFloat_single {d : Char} (hd : d.isDigit = true) :
    parsePyFloat [d] = some ⟨(digitVal d : ℤ), 0⟩ := by
  simp [parsePyFloat, List.takeWhile_cons, List.dropWhile_cons, hd, digitsVal]

lemma parsePyFloat_pair {d e : Char} (hd : d.isDigit = true) (he : e.isDigit = true) :
    parsePyFloat [d, '.', e] =
      some ⟨((digitVal d * 10 + digitVal e : ℕ) : ℤ), 1⟩ := by
  have hdot : ('.' : Char).isDigit = false := by decide
  simp [parsePyFloat, List.takeWhile_cons, List.dropWhile_cons, hd, he, hdot, digitsVal]

lemma toRat_nat_exp0 (n : ℕ) : (Dec.mk (n : ℤ) 0).toRat = (n : ℚ) := by
  simp [Dec.toRat]

lemma toRat_nat_exp1 (n : ℕ) : (Dec.mk (n : ℤ) 1).toRat = (n : ℚ) / 10 := by
  simp [Dec.toRat]

lemma clamp_toRat_id {v : Dec} (h0 : 0 ≤ v.toRat) (h10 : v.toRat ≤ 10) :
    (clamp_score v).toRat = v.toRat := by
  rw [clamp_score_toRat, min_eq_right h10, max_eq_right h0]

lemma scoreTail_eq {a b cap : List Char} (h : scoreTail a b = some cap) : cap = a := by
  cases h1 : matchChar '/' (b.dropWhile isPySpace) with
  | none =>
    simp only [scoreTail, h1] at h
    exact Option.noConfusion h
  | some r6 =>
    cases h2 : matchCI "10".toList (r6.dropWhile isPySpace) with
    | none =>
      simp only [scoreTail, h1, h2] at h
      exact Option.noConfusion h
    | some r7 =>
      simp only [scoreTail, h1, h2] at h
      exact (Option.some.inj h).symm

lemma scoreMatchAt_capture {l cap : List Char} (h : scoreMatchAt l = some cap) :
    (parsePyFloat cap).isSome = true := by
  cases h1 : matchCI "score".toList l with
  | none =>
    simp only [scoreMatchAt, h1] at h
    exact Option.noConfusion h
  | some r1 =>
    cases h2 : matchChar ':' (r1.dropWhile isPySpace) with
    | none =>
      simp only [scoreMatchAt, h1, h2] at h
      exact Option.noConfusion h
    | some r2 =>
      simp only [scoreMatchAt, h1, h2] at h
      by_cases hds : ((r2.dropWhile isPySpace).takeWhile Char.isDigit).isEmpty = true
      · rw [if_pos hds] at h
        exact Option.noConfusion h
      · rw [if_neg hds] at h
        have hne : ((r2.dropWhile isPySpace).takeWhile Char.isDigit).isEmpty = false :=
          Bool.eq_false_iff.mpr hds
        have hall : ((r2.dropWhile isPySpace).takeWhile Char.isDigit).all
            Char.isDigit = true := all_takeWhile_digits _
        cases hr4 : (r2.dropWhile isPySpace).dropWhile Char.isDigit with
        | nil =>
          simp only [hr4] at h
          rw [scoreTail_eq h]
          exact parsePyFloat_digits_isSome hne hall
        | cons c4 rest4 =>
          simp only [hr4] at h
          by_cases hc4 : c4 = '.'
          · subst hc4
            by_cases hfs : (rest4.takeWhile Char.isDigit).isEmpty = true
            · rw [if_pos rfl, if_pos hfs] at h
              rw [scoreTail_eq h]
              exact parsePyFloat_digits_isSome hne hall
            · rw [if_pos rfl, if_neg hfs] at h
              rw [scoreTail_eq h]
              exact parsePyFloat_dot_isSome hne hall (all_takeWhile_digits _)
          · rw [if_neg hc4] at h
            rw [scoreTail_eq h]
            exact parsePyFloat_digits_isSome hne hall

lemma fallbackDigit_shapes {l cap : List Char} (h : fallbackDigit l = some cap) :
    (∃ d, cap = [d] ∧ d.isDigit = true) ∨
    (∃ d e, cap = [d, '.', e] ∧ d.isDigit = true ∧ e.isDigit = true) := by
  cases l with
  | nil => exact Option.noConfusion h
  | cons d rest =>
    cases rest with
    | nil =>
      simp only [fallbackDigit] at h
      by_cases hd : d.isDigit = true
      · rw [if_pos hd] at h
        exact Or.inl ⟨d, (Option.some.inj h).symm, hd⟩
      · rw [if_neg hd] at h
        exact Option.noConfusion h
    | cons c rest1 =>
      simp only [fallbackDigit] at h
      by_cases hd : d.isDigit = true
      · rw [if_pos hd] at h
        by_cases hc : c = '.'
        · subst hc
          cases rest1 with
          | nil =>
            rw [if_pos rfl] at h
            have hb : boundaryAfter ('.' :: ([] : List Char)) = true := rfl
            rw [hb, if_pos rfl] at h
            exact Or.inl ⟨d, (Option.some.inj h).symm, hd⟩
          | cons e rest2 =>
            rw [if_pos rfl] at h
            have h' : (if (e.isDigit && boundaryAfter rest2) = true then some [d, '.', e]
                       else if boundaryAfter ('.' :: e :: rest2) = true then some [d]
                       else none) = some cap := h
            by_cases he : (e.isDigit && boundaryAfter rest2) = true
            · rw [if_pos he] at h'
              exact Or.inr ⟨d, e, (Option.some.inj h').symm, hd,
                ((Bool.and_eq_true _ _).mp he).1⟩
            · rw [if_neg he] at h'
              have hb : boundaryAfter ('.' :: e :: rest2) = true := rfl
              rw [hb, if_pos rfl] at h'
              exact Or.inl ⟨d, (Option.some.inj h').symm, hd⟩
        · rw [if_neg hc] at h
          by_cases hb : boundaryAfter (c :: rest1) = true
          · rw [if_pos hb] at h
            exact Or.inl ⟨d, (Option.some.inj h).symm, hd⟩
          · rw [if_neg hb] at h
            exact Option.noConfusion h
      · rw [if_neg hd] at h
        exact Option.noConfusion h

lemma fallbackAt_shapes {l cap : List Char} (h : fallbackAt l = some cap) :
    cap = ['1', '0'] ∨
    (∃ d, cap = [d] ∧ d.isDigit = true) ∨
    (∃ d e, cap = [d, '.', e] ∧ d.isDigit = true ∧ e.isDigit = true) := by
  cases l with
  | nil => exact Option.noConfusion h
  | cons c1 rest =>
    cases rest with
    | nil =>
      simp only [fallbackAt] at h
      exact Or.inr (fallbackDigit_shapes h)
    | cons c2 rest2 =>
      simp only [fallbackAt] at h
      by_cases h10 : (c1 = '1' && c2 = '0' && boundaryAfter rest2) = true
      · rw [if_pos h10] at h
        exact Or.inl (Option.some.inj h).symm
      · rw [if_neg h10] at h
        exact Or.inr (fallbackDigit_shapes h)

lemma fallback_capture_props {cap : List Char}
    (hsh : cap = ['1', '0'] ∨
      (∃ d, cap = [d] ∧ d.isDigit = true) ∨
      (∃ d e, cap = [d, '.', e] ∧ d.isDigit = true ∧ e.isDigit = true)) :
    parsePyFloat cap = some (fallbackVal cap) ∧
    0 ≤ (fallbackVal cap).toRat ∧ (fallbackVal cap).toRat ≤ 10 ∧
    (clamp_score (fallbackVal cap)).toRat = (fallbackVal cap).toRat := by
  obtain rfl | ⟨d, rfl, hd⟩ | ⟨d, e, rfl, hd, he⟩ := hsh
  · have hv : fallbackVal ['1', '0'] = ⟨10, 0⟩ := by decide
    have hcl : clamp_score (⟨10, 0⟩ : Dec) = ⟨10, 0⟩ := by decide
    refine ⟨by decide, ?_, ?_, ?_⟩
    · rw [hv, toRat_ten]; norm_num
    · rw [hv, toRat_ten]
    · rw [hv, hcl]
  · have hv : fallbackVal [d] = ⟨(digitVal d : ℤ), 0⟩ := by
      simp [fallbackVal, parsePyFloat_single hd]
    have hb := digitVal_le_nine hd
    have h0 : (0 : ℚ) ≤ (digitVal d : ℚ) := Nat.cast_nonneg _
    have h10 : (digitVal d : ℚ) ≤ 10 := by
      have h9 : (digitVal d : ℚ) ≤ 9 := by exact_mod_cast hb
      linarith
    refine ⟨?_, ?_, ?_, ?_⟩
    · rw [hv]; exact parsePyFloat_single hd
    · rw [hv, toRat_nat_exp0]; exact h0
    · rw [hv, toRat_nat_exp0]; exact h10
    · rw [hv]
      exact clamp_toRat_id (by rw [toRat_nat_exp0]; exact h0)
        (by rw [toRat_nat_exp0]; exact h10)
  · have hv : fallbackVal [d, '.', e] =
        ⟨((digitVal d * 10 + digitVal e : ℕ) : ℤ), 1⟩ := by
      simp [fallbackVal, parsePyFloat_pair hd he]
    have hbd := digitVal_le_nine hd
    have hbe := digitVal_le_nine he
    have hn : (digitVal d * 10 + digitVal e : ℕ) ≤ 99 := by omega
    have h0 : (0 : ℚ) ≤ ((digitVal d * 10 + digitVal e : ℕ) : ℚ) / 10 := by positivity
    have h10 : ((digitVal d * 10 + digitVal e : ℕ) : ℚ) / 10 ≤ 10 := by
      rw [div_le_iff₀ (by norm_num : (0 : ℚ) < 10)]
      have h99 : ((digitVal d * 10 + digitVal e : ℕ) : ℚ) ≤ 99 := by exact_mod_cast hn
      linarith
    refine ⟨?_, ?_, ?_, ?_⟩
    · rw [hv]; exact parsePyFloat_pair hd he
    · rw [hv, toRat_nat_exp1]; exact h0
    · rw [hv, toRat_nat_exp1]; exact h10
    · rw [hv]
      exact clamp_toRat_id (by rw [toRat_nat_exp1]; exact h0)
        (by rw [toRat_nat_exp1]; exact h10)

/-- C10: the two float-conversion error branches of `parse_model_reply` are
dead code, and the fallback is pre-clamped: every capture of `SCORE_RE`
converts to a float without a `ValueError`, and every capture of the
fallback number scan converts to a float that already lies in [0, 10], so
clamping never changes a fallback-extracted score value. -/
theorem conversion_branches_dead :
    (∀ r c, scoreSearch r = some c → (parsePyFloat c).isSome = true) ∧
    (∀ r c, fallbackFirst r = some c →
      parsePyFloat c = some (fallbackVal c) ∧
      0 ≤ (fallbackVal c).toRat ∧ (fallbackVal c).toRat ≤ 10 ∧
      (clamp_score (fallbackVal c)).toRat = (fallbackVal c).toRat) := by
  constructor
  · intro r c h
    unfold scoreSearch at h
    obtain ⟨l', hl'⟩ := search_some h
    exact scoreMatchAt_capture hl'
  · intro r c h
    unfold fallbackFirst at h
    obtain ⟨l', hl'⟩ := fallbackSearch_some h
    exact fallback_capture_props (fallbackAt_shapes hl')

/-- Witness for C10: the `SCORE_RE` capture of `"Score: 3.5/10"` and the
fallback capture of `"earns 7 marks"`. -/
theorem conversion_branches_dead_witness :
    (parsePyFloat "3.5".toList).isSome = true ∧
    (parsePyFloat ['7'] = some (fallbackVal ['7']) ∧
      0 ≤ (fallbackVal ['7']).toRat ∧ (fallbackVal ['7']).toRat ≤ 10 ∧
      (clamp_score (fallbackVal ['7'])).toRat = (fallbackVal ['7']).toRat) :=
  ⟨conversion_branches_dead.1 "Score: 3.5/10".toList "3.5".toList (by decide),
   conversion_branches_dead.2 "earns 7 marks".toList ['7'] (by decide)⟩

end TheoryGrading
